import Mathlib

/-!
Shallow embedding of `src/bullets/portfolio/portfolio.py` (class `Portfolio`)
from the BullETS backtesting engine, together with the records it manipulates.

Modelling conventions:
* Python floats are modelled by `ℚ`.
* `None` timestamps / absent prices are `Option`.
* A Python runtime fault (`TypeError` on `None` arithmetic or comparison,
  `KeyError` on `dict.pop` of an absent key, `AttributeError` on
  `None.year`) is modelled by the whole operation returning `none`;
  a normal result (including a failed-status transaction) is `some`.
* Python `dict` is modelled by an association list with dict semantics:
  lookup of the (unique) key, in-place update, removal.

The classes `Holding`, `Order`, `Transaction`, `Status`, `Resolution` and
`DataSourceInterface` are imported by `portfolio.py` but their files are not
part of the sources at hand; they are modelled from the specification where
so marked.
-/

namespace BullETS

/-- Modelled from the spec: the price-source resolution enumeration
(`Resolution` in `bullets.data_source.data_source_interface`), "enumerated: at
least `DAILY` and at least one finer-grained value"; `portfolio.py` only ever
tests whether the resolution `is not Resolution.DAILY`. -/
inductive Resolution
  | DAILY
  | HOURLY
  | MINUTE
deriving DecidableEq

/-- A calendar timestamp, standing for Python's `datetime.datetime`; only the
six components used by `portfolio.py` are kept. -/
structure Timestamp where
  year : Nat
  month : Nat
  day : Nat
  hour : Nat
  minute : Nat
  second : Nat
deriving DecidableEq

/-- The truncation `datetime.datetime(ts.year, ts.month, ts.day, 00, 00, 00)`
performed by `_get_daily_high_price`. -/
def Timestamp.midnight (t : Timestamp) : Timestamp :=
  ⟨t.year, t.month, t.day, 0, 0, 0⟩

/-- Modelled from the spec: the price-source capability,
`get_price(symbol, timestamp, field?) -> price | absent`, plus the
`resolution` attribute.  The `field` argument is `none` when the Python call
leaves it at its default, `some "high"` when `portfolio.py` asks for the
day's high; a `none` timestamp models a call that omits the argument. -/
structure DataSourceInterface where
  resolution : Resolution
  getPrice : String → Option Timestamp → Option String → Option ℚ

/-- The transaction status enumeration (`Status` in
`bullets.portfolio.transaction`); the spec fixes the closed set
`SUCCESSFUL`, `FAILED_SYMBOL_NOT_FOUND`, `FAILED_INSUFFICIENT_FUNDS`. -/
inductive Status
  | SUCCESSFUL
  | FAILED_SYMBOL_NOT_FOUND
  | FAILED_INSUFFICIENT_FUNDS
deriving DecidableEq

/-- A pending conditional order, `Order(symbol, nb_shares, price)` as
constructed by `portfolio.py`; per the spec the record is the symbol, the
signed share quantity and the trigger price. -/
structure Order where
  symbol : String
  nb_shares : ℚ
  price : ℚ
deriving DecidableEq

/-- A transaction record, with the nine fields in the order of the
`Transaction(...)` constructor call in `_validate_and_create_transaction`. -/
structure Transaction where
  symbol : String
  nb_shares : ℚ
  theoretical_price : Option ℚ
  simulated_price : Option ℚ
  timestamp : Option Timestamp
  cash_balance : ℚ
  status : Status
  fees : ℚ
  order_type : String
deriving DecidableEq

/-- Modelled from the spec: the `Holding` record (class `Holding` in
`bullets.portfolio.holding`, not among the sources): "symbol (string,
immutable), number of shares (signed real ...), average entry price, current
mark price".  The mark price plays no role in the claims below and is
omitted. -/
structure Holding where
  symbol : String
  nb_shares : ℚ
  avg_price : ℚ
deriving DecidableEq

/-- Modelled from the spec: a fresh zero-position holding, `Holding(symbol)`. -/
def Holding.new (symbol : String) : Holding :=
  ⟨symbol, 0, 0⟩

/-- Modelled from the spec: `Holding.add_shares(nb_shares, price)` (class
`Holding` is not among the sources).  Per §4.3: "new share count = old +
signed_shares; when increasing an existing position in the same direction,
recompute a weighted average entry price; when the fill partially or fully
offsets an existing position, reduce shares accordingly", and per §9 a fill
crossing through zero opens the new position at the fill price.  The method
mutates the holding and returns the new share count; here it returns the
updated holding paired with that count. -/
def Holding.add_shares (h : Holding) (nb : ℚ) (price : ℚ) : Holding × ℚ :=
  let n := h.nb_shares + nb
  let avg :=
    if h.nb_shares = 0 then price
    else if (0 ≤ h.nb_shares ∧ 0 ≤ nb) ∨ (h.nb_shares ≤ 0 ∧ nb ≤ 0) then
      (h.nb_shares * h.avg_price + nb * price) / n
    else if (0 < h.nb_shares ∧ n < 0) ∨ (h.nb_shares < 0 ∧ 0 < n) then price
    else h.avg_price
  (⟨h.symbol, n, avg⟩, n)

/-- Dict lookup: `d.get(k)` / `d[k]` on a Python dict (unique keys). -/
def dictGet : List (String × Holding) → String → Option Holding
  | [], _ => none
  | e :: rest, k => if e.1 = k then some e.2 else dictGet rest k

/-- Dict update: `d[k] = v`, replacing the existing entry in place or
appending a new one. -/
def dictSet : List (String × Holding) → String → Holding → List (String × Holding)
  | [], k, v => [(k, v)]
  | e :: rest, k, v => if e.1 = k then (k, v) :: rest else e :: dictSet rest k v

/-- Dict removal: `d.pop(k)` on a dict known to contain `k` (a dict holds at
most one entry per key, so removing every entry with key `k` is `pop`). -/
def dictDel : List (String × Holding) → String → List (String × Holding)
  | [], _ => []
  | e :: rest, k => if e.1 = k then dictDel rest k else e :: dictDel rest k

/-- The full mutable state of a `Portfolio` object, with the fields set up by
`__init__`. -/
structure Portfolio where
  start_balance : ℚ
  cash_balance : ℚ
  holdings : List (String × Holding)
  transactions : List Transaction
  timestamp : Option Timestamp
  data_source : DataSourceInterface
  slippage_percent : ℚ
  transaction_fees : ℚ
  pending_buy_limit_orders : List Order
  pending_sell_limit_orders : List Order
  pending_buy_stop_orders : List Order
  pending_sell_stop_orders : List Order

/-- `Portfolio._get_daily_high_price`: truncate the current timestamp to
midnight and query the price source for the `"high"` field.  Outer `none`
models the `AttributeError` raised when `self.timestamp` is `None`; the inner
option is the price source's own price-or-absent answer. -/
def _get_daily_high_price (p : Portfolio) (symbol : String) : Option (Option ℚ) :=
  match p.timestamp with
  | none => none
  | some ts => some (p.data_source.getPrice symbol (some ts.midnight) (some "high"))

/-- `Portfolio._get_slippage_price`: at a non-daily resolution the
theoretical price is returned unchanged; at daily resolution the price is
pushed toward the day's high by `slippage_percent / 100`.  A `none` result
models the `TypeError` raised when the day's high is `None` (so
`daily_high_price - theoretical_price` faults), or the propagated fault of
`_get_daily_high_price`. -/
def _get_slippage_price (p : Portfolio) (theoretical_price : ℚ)
    (slippage_percent : ℚ) (symbol : String) : Option ℚ :=
  if p.data_source.resolution ≠ Resolution.DAILY then
    some theoretical_price
  else
    match _get_daily_high_price p symbol with
    | none => none
    | some none => none
    | some (some daily_high_price) =>
      let actual_slippage_percent := slippage_percent / 100
      let slippage_factor := (daily_high_price - theoretical_price) * actual_slippage_percent
      some (theoretical_price + slippage_factor)

/-- `Portfolio._validate_and_create_transaction`: build the transaction for
an order attempt and debit the cash balance on success.  Returns the
transaction paired with the new cash balance, or `none` when the slippage
computation faults. -/
def _validate_and_create_transaction (p : Portfolio) (symbol : String)
    (nb_shares : ℚ) (theoretical_price : Option ℚ) (slippage_percent : ℚ)
    (transaction_fees : ℚ) (order_type : String) : Option (Transaction × ℚ) :=
  match theoretical_price with
  | none =>
    some (⟨symbol, nb_shares, none, none, p.timestamp, p.cash_balance,
           Status.FAILED_SYMBOL_NOT_FOUND, transaction_fees, order_type⟩,
          p.cash_balance)
  | some tp =>
    match _get_slippage_price p tp slippage_percent symbol with
    | none => none
    | some simulated_price =>
      if p.cash_balance ≥ nb_shares * simulated_price + transaction_fees then
        let newCash := p.cash_balance - (nb_shares * simulated_price + transaction_fees)
        some (⟨symbol, nb_shares, some tp, some simulated_price, p.timestamp,
               newCash, Status.SUCCESSFUL, transaction_fees, order_type⟩,
              newCash)
      else
        some (⟨symbol, nb_shares, some tp, some simulated_price, p.timestamp,
               p.cash_balance, Status.FAILED_INSUFFICIENT_FUNDS, transaction_fees,
               order_type⟩,
              p.cash_balance)

/-- `Portfolio._put_holding`: merge a fill into the holdings dict; a zero
resulting share count removes the entry (`dict.pop`, which raises `KeyError`
— modelled as `none` — when the symbol is absent). -/
def _put_holding (holdings : List (String × Holding)) (symbol : String)
    (nb_shares : ℚ) (price : ℚ) : Option (List (String × Holding)) :=
  let holding := (dictGet holdings symbol).getD (Holding.new symbol)
  let res := holding.add_shares nb_shares price
  if res.2 = 0 then
    if (dictGet holdings symbol).isSome then some (dictDel holdings symbol)
    else none
  else
    some (dictSet holdings symbol res.1)

/-- `Portfolio._order`: query the theoretical price at the current timestamp,
validate and record the transaction, and on success update the holdings.
Returns the updated portfolio with the transaction, or `none` on a fault. -/
def _order (p : Portfolio) (symbol : String) (nb_shares : ℚ)
    (order_type : String) : Option (Portfolio × Transaction) :=
  let theoretical_price := p.data_source.getPrice symbol p.timestamp none
  match _validate_and_create_transaction p symbol nb_shares theoretical_price
      p.slippage_percent p.transaction_fees order_type with
  | none => none
  | some (transaction, newCash) =>
    let p1 : Portfolio :=
      { p with cash_balance := newCash,
               transactions := p.transactions ++ [transaction] }
    if transaction.status = Status.SUCCESSFUL then
      match transaction.simulated_price with
      | none => none
      | some sp =>
        match _put_holding p1.holdings symbol nb_shares sp with
        | none => none
        | some newHoldings => some ({ p1 with holdings := newHoldings }, transaction)
    else
      some (p1, transaction)

/-- `Portfolio.market_order`. -/
def market_order (p : Portfolio) (symbol : String) (nb_shares : ℚ) :
    Option (Portfolio × Transaction) :=
  _order p symbol nb_shares "Market Order"

/-- `Portfolio.buy_limit_order`: appends `Order(symbol, nb_shares, price)` to
`self.pending_buy_stop_orders` (sic — this is what the source does). -/
def buy_limit_order (p : Portfolio) (symbol : String) (nb_shares : ℚ)
    (price : ℚ) : Portfolio :=
  { p with pending_buy_stop_orders :=
      p.pending_buy_stop_orders ++ [Order.mk symbol nb_shares price] }

/-- `Portfolio.sell_limit_order`: appends `Order(symbol, -nb_shares, price)`
to `self.pending_sell_stop_orders` (sic — this is what the source does). -/
def sell_limit_order (p : Portfolio) (symbol : String) (nb_shares : ℚ)
    (price : ℚ) : Portfolio :=
  { p with pending_sell_stop_orders :=
      p.pending_sell_stop_orders ++ [Order.mk symbol (-nb_shares) price] }

/-- `Portfolio.buy_stop_order`: appends `Order(symbol, nb_shares, price)` to
`self.pending_buy_stop_orders`. -/
def buy_stop_order (p : Portfolio) (symbol : String) (nb_shares : ℚ)
    (price : ℚ) : Portfolio :=
  { p with pending_buy_stop_orders :=
      p.pending_buy_stop_orders ++ [Order.mk symbol nb_shares price] }

/-- `Portfolio.sell_stop_order`: appends `Order(symbol, -nb_shares, price)`
to `self.pending_sell_stop_orders`. -/
def sell_stop_order (p : Portfolio) (symbol : String) (nb_shares : ℚ)
    (price : ℚ) : Portfolio :=
  { p with pending_sell_stop_orders :=
      p.pending_sell_stop_orders ++ [Order.mk symbol (-nb_shares) price] }

/-- The first loop of `Portfolio.on_resolution`: for each pending buy-stop
order, fetch the current price with `get_price(order.symbol)` (no timestamp
argument) and submit a market-path order when `price <= order.price`.
A `none` price makes the Python comparison `None <= order.price` raise a
`TypeError`, modelled as a `none` result. -/
def runBuyStopLoop : Portfolio → List Order → Option Portfolio
  | p, [] => some p
  | p, o :: rest =>
    match p.data_source.getPrice o.symbol none none with
    | none => none
    | some price =>
      if price ≤ o.price then
        match _order p o.symbol o.nb_shares "Buy Stop Order" with
        | none => none
        | some (p2, _) => runBuyStopLoop p2 rest
      else runBuyStopLoop p rest

/-- The second loop of `Portfolio.on_resolution` (sell-stop orders, firing
when `price >= order.price`). -/
def runSellStopLoop : Portfolio → List Order → Option Portfolio
  | p, [] => some p
  | p, o :: rest =>
    match p.data_source.getPrice o.symbol none none with
    | none => none
    | some price =>
      if o.price ≤ price then
        match _order p o.symbol o.nb_shares "Sell Stop Order" with
        | none => none
        | some (p2, _) => runSellStopLoop p2 rest
      else runSellStopLoop p rest

/-- The third loop of `Portfolio.on_resolution` (buy-limit orders, firing
when `price <= order.price`). -/
def runBuyLimitLoop : Portfolio → List Order → Option Portfolio
  | p, [] => some p
  | p, o :: rest =>
    match p.data_source.getPrice o.symbol none none with
    | none => none
    | some price =>
      if price ≤ o.price then
        match _order p o.symbol o.nb_shares "Buy Limit Order" with
        | none => none
        | some (p2, _) => runBuyLimitLoop p2 rest
      else runBuyLimitLoop p rest

/-- The fourth loop of `Portfolio.on_resolution` (sell-limit orders, firing
when `price >= order.price`). -/
def runSellLimitLoop : Portfolio → List Order → Option Portfolio
  | p, [] => some p
  | p, o :: rest =>
    match p.data_source.getPrice o.symbol none none with
    | none => none
    | some price =>
      if o.price ≤ price then
        match _order p o.symbol o.nb_shares "Sell Limit Order" with
        | none => none
        | some (p2, _) => runSellLimitLoop p2 rest
      else runSellLimitLoop p rest

/-- `Portfolio.on_resolution`: run the four pending-order loops in the fixed
source order buy-stop, sell-stop, buy-limit, sell-limit, threading the
portfolio state through and propagating faults. -/
def on_resolution (p : Portfolio) : Option Portfolio := do
  let p1 ← runBuyStopLoop p p.pending_buy_stop_orders
  let p2 ← runSellStopLoop p1 p1.pending_sell_stop_orders
  let p3 ← runBuyLimitLoop p2 p2.pending_buy_limit_orders
  runSellLimitLoop p3 p3.pending_sell_limit_orders

/-- Following the specification wording of §4.4, for the refinement claim C7:
evaluate one pending collection; for each order fetch the current price for
its symbol (no timestamp), fire when the `fires` comparison between current
price and trigger price holds, and submit the fill through the market-order
path with the preserved order-type label. -/
def evalCollectionSpec (fires : ℚ → ℚ → Bool) (label : String) :
    Portfolio → List Order → Option Portfolio
  | p, [] => some p
  | p, o :: rest =>
    match p.data_source.getPrice o.symbol none none with
    | none => none
    | some price =>
      if fires price o.price then
        match _order p o.symbol o.nb_shares label with
        | none => none
        | some (p2, _) => evalCollectionSpec fires label p2 rest
      else evalCollectionSpec fires label p rest

/-- Spec §4.4: a buy (stop or limit) order triggers when current price ≤ the
order's trigger price. -/
def fireBuy : ℚ → ℚ → Bool :=
  fun price trigger => decide (price ≤ trigger)

/-- Spec §4.4: a sell (stop or limit) order triggers when current price ≥ the
order's trigger price. -/
def fireSell : ℚ → ℚ → Bool :=
  fun price trigger => decide (trigger ≤ price)

/-- Following the specification wording of §4.4, for the refinement claim C7:
evaluate, in this fixed order, the four pending collections buy-stop,
sell-stop, buy-limit, sell-limit, with the trigger conditions and order-type
labels of the spec. -/
def on_resolution_spec (p : Portfolio) : Option Portfolio := do
  let p1 ← evalCollectionSpec fireBuy "Buy Stop Order" p p.pending_buy_stop_orders
  let p2 ← evalCollectionSpec fireSell "Sell Stop Order" p1 p1.pending_sell_stop_orders
  let p3 ← evalCollectionSpec fireBuy "Buy Limit Order" p2 p2.pending_buy_limit_orders
  evalCollectionSpec fireSell "Sell Limit Order" p3 p3.pending_sell_limit_orders

/-- Net share count recorded for a symbol in a holdings dict (0 when the
symbol is absent). -/
def sharesOfD (d : List (String × Holding)) (s : String) : ℚ :=
  match dictGet d s with
  | some h => h.nb_shares
  | none => 0

/-- Net share count recorded for a symbol in a portfolio's holdings. -/
def sharesOf (p : Portfolio) (s : String) : ℚ :=
  sharesOfD p.holdings s

/-- The ledger invariant of the spec: every holding present in the holdings
dict has a nonzero share count. -/
def HoldingsInv (d : List (String × Holding)) : Prop :=
  ∀ e ∈ d, e.2.nb_shares ≠ 0

/-- All pending conditional orders of a portfolio, in the scan order of
`on_resolution`. -/
def pendingOrders (p : Portfolio) : List Order :=
  p.pending_buy_stop_orders ++ p.pending_sell_stop_orders ++
    p.pending_buy_limit_orders ++ p.pending_sell_limit_orders

/-- A concrete timestamp used by the test fixtures below. -/
def TS0 : Timestamp := ⟨2021, 5, 4, 9, 30, 0⟩

/-- A price source at minute resolution quoting the same constant price for
every query. -/
def dsConst (pr : ℚ) : DataSourceInterface :=
  ⟨Resolution.MINUTE, fun _ _ _ => some pr⟩

/-- A price source at minute resolution that knows no symbol at all. -/
def dsNone : DataSourceInterface :=
  ⟨Resolution.MINUTE, fun _ _ _ => none⟩

/-- A daily-resolution price source quoting 100, with a day's high of 110. -/
def dsDaily : DataSourceInterface :=
  ⟨Resolution.DAILY, fun _ _ f => if f = some "high" then some 110 else some 100⟩

/-- A daily-resolution price source quoting 100 whose day's-high lookups all
come back absent. -/
def dsNoHigh : DataSourceInterface :=
  ⟨Resolution.DAILY, fun _ _ f => if f = some "high" then none else some 100⟩

/-- Fixture: a freshly initialized portfolio — start balance 10000, constant
quote 100 at minute resolution, 0% slippage, fee 5, no holdings, no pending
orders. -/
def P0 : Portfolio :=
  { start_balance := 10000, cash_balance := 10000, holdings := [],
    transactions := [], timestamp := some TS0, data_source := dsConst 100,
    slippage_percent := 0, transaction_fees := 5,
    pending_buy_limit_orders := [], pending_sell_limit_orders := [],
    pending_buy_stop_orders := [], pending_sell_stop_orders := [] }

/-- The successful-market-buy transaction produced from `P0` by
`market_order P0 "AAPL" 10`. -/
def T2res : Transaction :=
  ⟨"AAPL", 10, some 100, some 100, some TS0, 8995, Status.SUCCESSFUL, 5,
   "Market Order"⟩

/-- The portfolio state after `market_order P0 "AAPL" 10`. -/
def P2res : Portfolio :=
  { P0 with
    cash_balance := 8995
    transactions := [T2res]
    holdings := [("AAPL", ⟨"AAPL", 10, 100⟩)] }

/-- Fixture for C3's witness: `P0` against a source that knows no symbol. -/
def P3nf : Portfolio :=
  { P0 with data_source := dsNone }

/-- Fixture for C3's witness: `P0` with only 50 in cash, so that one share at
100 plus the fee of 5 is unaffordable. -/
def P3if : Portfolio :=
  { P0 with cash_balance := 50 }

/-- A pending buy-stop order on AAPL, 1 share, trigger price 100. -/
def O4 : Order := ⟨"AAPL", 1, 100⟩

/-- Fixture for C4: quote 90 (below the trigger 100), no fee, one pending
buy-stop order. -/
def P4 : Portfolio :=
  { P0 with
    transaction_fees := 0
    data_source := dsConst 90
    pending_buy_stop_orders := [O4] }

/-- Fixture for C5's witness: `P0` at daily resolution with day's high 110. -/
def P5 : Portfolio :=
  { P0 with data_source := dsDaily }

/-- Fixture for C6: daily resolution, quote available, day's high absent. -/
def P6 : Portfolio :=
  { P0 with data_source := dsNoHigh }

/-- Fixture for C9: `P0` already holding 3 shares of AAPL. -/
def P9 : Portfolio :=
  { P0 with holdings := [("AAPL", ⟨"AAPL", 3, 50⟩)] }

/-- Fixture for C10's witness: a pending buy-stop order over a source that
knows no symbol. -/
def P10 : Portfolio :=
  { P3nf with pending_buy_stop_orders := [O4] }

theorem add_shares_snd (h : Holding) (nb pr : ℚ) :
    (h.add_shares nb pr).2 = h.nb_shares + nb := rfl

theorem add_shares_fst_nb (h : Holding) (nb pr : ℚ) :
    (h.add_shares nb pr).1.nb_shares = h.nb_shares + nb := rfl

theorem dictGet_dictDel_self (d : List (String × Holding)) (k : String) :
    dictGet (dictDel d k) k = none := by
  induction d with
  | nil => rfl
  | cons e rest ih =>
    by_cases h : e.1 = k
    · simp [dictDel, h, ih]
    · simp [dictDel, h, dictGet, ih]

theorem dictGet_dictSet_self (d : List (String × Holding)) (k : String) (v : Holding) :
    dictGet (dictSet d k v) k = some v := by
  induction d with
  | nil => simp [dictSet, dictGet]
  | cons e rest ih =>
    by_cases h : e.1 = k
    · simp [dictSet, h, dictGet]
    · simp [dictSet, h, dictGet, ih]

theorem mem_dictSet {d : List (String × Holding)} {k : String} {v : Holding}
    {e : String × Holding} (he : e ∈ dictSet d k v) : e ∈ d ∨ e = (k, v) := by
  induction d with
  | nil =>
    simp only [dictSet, List.mem_singleton] at he
    exact Or.inr he
  | cons a rest ih =>
    by_cases h : a.1 = k
    · rw [dictSet, if_pos h] at he
      rcases List.mem_cons.mp he with h1 | h1
      · exact Or.inr h1
      · exact Or.inl (List.mem_cons_of_mem a h1)
    · rw [dictSet, if_neg h] at he
      rcases List.mem_cons.mp he with h1 | h1
      · exact Or.inl (h1 ▸ List.mem_cons_self a rest)
      · rcases ih h1 with h2 | h2
        · exact Or.inl (List.mem_cons_of_mem a h2)
        · exact Or.inr h2

theorem mem_dictDel {d : List (String × Holding)} {k : String}
    {e : String × Holding} (he : e ∈ dictDel d k) : e ∈ d := by
  induction d with
  | nil => simp [dictDel] at he
  | cons a rest ih =>
    by_cases h : a.1 = k
    · rw [dictDel, if_pos h] at he
      exact List.mem_cons_of_mem a (ih he)
    · rw [dictDel, if_neg h] at he
      rcases List.mem_cons.mp he with h1 | h1
      · exact h1 ▸ List.mem_cons_self a rest
      · exact List.mem_cons_of_mem a (ih h1)

theorem sharesOfD_getD (d : List (String × Holding)) (s : String) :
    ((dictGet d s).getD (Holding.new s)).nb_shares = sharesOfD d s := by
  unfold sharesOfD
  cases hg : dictGet d s with
  | none => simp [Holding.new]
  | some v => simp

theorem put_holding_shares (d : List (String × Holding)) (s : String) (n pr : ℚ)
    (d' : List (String × Holding)) (h : _put_holding d s n pr = some d') :
    sharesOfD d' s = sharesOfD d s + n := by
  simp only [_put_holding] at h
  rw [add_shares_snd] at h
  by_cases h0 : ((dictGet d s).getD (Holding.new s)).nb_shares + n = 0
  · rw [if_pos h0] at h
    by_cases hs : (dictGet d s).isSome
    · rw [if_pos hs] at h
      obtain rfl : dictDel d s = d' := Option.some.inj h
      rw [sharesOfD_getD] at h0
      have h2 : sharesOfD (dictDel d s) s = 0 := by
        simp [sharesOfD, dictGet_dictDel_self]
      rw [h2, h0]
    · rw [if_neg hs] at h
      exact absurd h (by simp)
  · rw [if_neg h0] at h
    obtain rfl : dictSet d s (((dictGet d s).getD (Holding.new s)).add_shares n pr).1 = d' :=
      Option.some.inj h
    have h2 : sharesOfD (dictSet d s (((dictGet d s).getD (Holding.new s)).add_shares n pr).1) s
        = (((dictGet d s).getD (Holding.new s)).add_shares n pr).1.nb_shares := by
      simp [sharesOfD, dictGet_dictSet_self]
    rw [h2, add_shares_fst_nb, sharesOfD_getD]

theorem put_holding_inv (d : List (String × Holding)) (s : String) (n pr : ℚ)
    (d' : List (String × Holding)) (hinv : HoldingsInv d)
    (h : _put_holding d s n pr = some d') : HoldingsInv d' := by
  simp only [_put_holding] at h
  rw [add_shares_snd] at h
  by_cases h0 : ((dictGet d s).getD (Holding.new s)).nb_shares + n = 0
  · rw [if_pos h0] at h
    by_cases hs : (dictGet d s).isSome
    · rw [if_pos hs] at h
      obtain rfl : dictDel d s = d' := Option.some.inj h
      exact fun e he => hinv e (mem_dictDel he)
    · rw [if_neg hs] at h
      exact absurd h (by simp)
  · rw [if_neg h0] at h
    obtain rfl : dictSet d s (((dictGet d s).getD (Holding.new s)).add_shares n pr).1 = d' :=
      Option.some.inj h
    intro e he
    rcases mem_dictSet he with h1 | h1
    · exact hinv e h1
    · rw [h1]
      simpa [add_shares_fst_nb] using h0

theorem put_holding_zero (d : List (String × Holding)) (s : String) (n pr : ℚ)
    (d' : List (String × Holding)) (h0 : sharesOfD d s + n = 0)
    (h : _put_holding d s n pr = some d') : dictGet d' s = none := by
  simp only [_put_holding] at h
  rw [add_shares_snd, sharesOfD_getD] at h
  rw [if_pos h0] at h
  by_cases hs : (dictGet d s).isSome
  · rw [if_pos hs] at h
    obtain rfl : dictDel d s = d' := Option.some.inj h
    exact dictGet_dictDel_self d s
  · rw [if_neg hs] at h
    exact absurd h (by simp)

theorem order_symbol_not_found (p : Portfolio) (s : String) (n : ℚ) (lbl : String)
    (h : p.data_source.getPrice s p.timestamp none = none) :
    _order p s n lbl =
      some ({ p with transactions := p.transactions ++
          [⟨s, n, none, none, p.timestamp, p.cash_balance,
            Status.FAILED_SYMBOL_NOT_FOUND, p.transaction_fees, lbl⟩] },
        ⟨s, n, none, none, p.timestamp, p.cash_balance,
          Status.FAILED_SYMBOL_NOT_FOUND, p.transaction_fees, lbl⟩) := by
  simp [_order, _validate_and_create_transaction, h]

theorem order_insufficient_funds (p : Portfolio) (s : String) (n : ℚ) (lbl : String)
    (tp sp : ℚ)
    (hg : p.data_source.getPrice s p.timestamp none = some tp)
    (hs : _get_slippage_price p tp p.slippage_percent s = some sp)
    (hlt : p.cash_balance < n * sp + p.transaction_fees) :
    _order p s n lbl =
      some ({ p with transactions := p.transactions ++
          [⟨s, n, some tp, some sp, p.timestamp, p.cash_balance,
            Status.FAILED_INSUFFICIENT_FUNDS, p.transaction_fees, lbl⟩] },
        ⟨s, n, some tp, some sp, p.timestamp, p.cash_balance,
          Status.FAILED_INSUFFICIENT_FUNDS, p.transaction_fees, lbl⟩) := by
  simp only [_order, _validate_and_create_transaction, hg, hs]
  rw [if_neg (not_le.mpr hlt)]
  simp

theorem order_success_core (p : Portfolio) (s : String) (n : ℚ) (lbl : String)
    (p' : Portfolio) (t : Transaction)
    (hrun : _order p s n lbl = some (p', t)) (hst : t.status = Status.SUCCESSFUL) :
    ∃ tp sp, p.data_source.getPrice s p.timestamp none = some tp ∧
      _get_slippage_price p tp p.slippage_percent s = some sp ∧
      t.simulated_price = some sp ∧
      p.cash_balance ≥ n * sp + p.transaction_fees ∧
      p'.cash_balance = p.cash_balance - (n * sp + p.transaction_fees) ∧
      p'.transactions = p.transactions ++ [t] ∧
      _put_holding p.holdings s n sp = some p'.holdings := by
  cases hg : p.data_source.getPrice s p.timestamp none with
  | none =>
    rw [order_symbol_not_found p s n lbl hg] at hrun
    obtain ⟨hp', ht⟩ := Prod.mk.inj (Option.some.inj hrun)
    rw [← ht] at hst
    exact absurd hst (by simp)
  | some tp =>
    cases hs : _get_slippage_price p tp p.slippage_percent s with
    | none =>
      simp only [_order, _validate_and_create_transaction, hg, hs] at hrun
      exact Option.noConfusion hrun
    | some sp =>
      by_cases hge : p.cash_balance ≥ n * sp + p.transaction_fees
      · simp only [_order, _validate_and_create_transaction, hg, hs] at hrun
        rw [if_pos hge] at hrun
        simp only [] at hrun
        cases hput : _put_holding p.holdings s n sp with
        | none =>
          rw [hput] at hrun
          simp at hrun
        | some d' =>
          rw [hput] at hrun
          simp only [] at hrun
          obtain ⟨hp', ht⟩ := Prod.mk.inj (Option.some.inj hrun)
          subst hp'
          subst ht
          exact ⟨tp, sp, rfl, hs, rfl, hge, rfl, rfl, hput⟩
      · simp only [_order, _validate_and_create_transaction, hg, hs] at hrun
        rw [if_neg hge] at hrun
        simp only [] at hrun
        obtain ⟨hp', ht⟩ := Prod.mk.inj (Option.some.inj hrun)
        rw [← ht] at hst
        exact absurd hst (by simp)

theorem order_frame (p : Portfolio) (s : String) (n : ℚ) (lbl : String)
    (p' : Portfolio) (t : Transaction) (hrun : _order p s n lbl = some (p', t)) :
    p'.data_source = p.data_source ∧
    p'.pending_buy_stop_orders = p.pending_buy_stop_orders ∧
    p'.pending_sell_stop_orders = p.pending_sell_stop_orders ∧
    p'.pending_buy_limit_orders = p.pending_buy_limit_orders ∧
    p'.pending_sell_limit_orders = p.pending_sell_limit_orders := by
  cases hg : p.data_source.getPrice s p.timestamp none with
  | none =>
    rw [order_symbol_not_found p s n lbl hg] at hrun
    obtain ⟨hp', ht⟩ := Prod.mk.inj (Option.some.inj hrun)
    subst hp'
    exact ⟨rfl, rfl, rfl, rfl, rfl⟩
  | some tp =>
    cases hs : _get_slippage_price p tp p.slippage_percent s with
    | none =>
      simp only [_order, _validate_and_create_transaction, hg, hs] at hrun
      exact Option.noConfusion hrun
    | some sp =>
      by_cases hge : p.cash_balance ≥ n * sp + p.transaction_fees
      · simp only [_order, _validate_and_create_transaction, hg, hs] at hrun
        rw [if_pos hge] at hrun
        simp only [] at hrun
        cases hput : _put_holding p.holdings s n sp with
        | none =>
          rw [hput] at hrun
          simp at hrun
        | some d' =>
          rw [hput] at hrun
          simp only [] at hrun
          obtain ⟨hp', ht⟩ := Prod.mk.inj (Option.some.inj hrun)
          subst hp'
          exact ⟨rfl, rfl, rfl, rfl, rfl⟩
      · simp only [_order, _validate_and_create_transaction, hg, hs] at hrun
        rw [if_neg hge] at hrun
        simp only [] at hrun
        obtain ⟨hp', ht⟩ := Prod.mk.inj (Option.some.inj hrun)
        subst hp'
        exact ⟨rfl, rfl, rfl, rfl, rfl⟩

theorem opt_bind_none {α β : Type} (x : Option α) (f : α → Option β)
    (h : x = none) : (x >>= f) = none := by
  rw [h]
  rfl

theorem opt_bind_some {α β : Type} (x : Option α) (f : α → Option β) (a : α)
    (h : x = some a) : (x >>= f) = f a := by
  rw [h]
  rfl

theorem evalSpec_frame (fires : ℚ → ℚ → Bool) (lbl : String) :
    ∀ (l : List Order) (p p' : Portfolio),
      evalCollectionSpec fires lbl p l = some p' →
      p'.data_source = p.data_source ∧
      p'.pending_buy_stop_orders = p.pending_buy_stop_orders ∧
      p'.pending_sell_stop_orders = p.pending_sell_stop_orders ∧
      p'.pending_buy_limit_orders = p.pending_buy_limit_orders ∧
      p'.pending_sell_limit_orders = p.pending_sell_limit_orders := by
  intro l
  induction l with
  | nil =>
    intro p p' h
    obtain rfl : p = p' := Option.some.inj h
    exact ⟨rfl, rfl, rfl, rfl, rfl⟩
  | cons o rest ih =>
    intro p p' h
    simp only [evalCollectionSpec] at h
    cases hg : p.data_source.getPrice o.symbol none none with
    | none =>
      rw [hg] at h
      exact Option.noConfusion h
    | some price =>
      rw [hg] at h
      simp only [] at h
      by_cases hf : fires price o.price = true
      · rw [if_pos hf] at h
        cases ho : _order p o.symbol o.nb_shares lbl with
        | none =>
          rw [ho] at h
          exact Option.noConfusion h
        | some q =>
          rw [ho] at h
          obtain ⟨p2, t⟩ := q
          have hfr := order_frame p o.symbol o.nb_shares lbl p2 t ho
          have hmid := ih p2 p' h
          exact ⟨hmid.1.trans hfr.1, hmid.2.1.trans hfr.2.1,
            hmid.2.2.1.trans hfr.2.2.1, hmid.2.2.2.1.trans hfr.2.2.2.1,
            hmid.2.2.2.2.trans hfr.2.2.2.2⟩
      · rw [if_neg hf] at h
        exact ih p p' h

theorem evalSpec_bad (fires : ℚ → ℚ → Bool) (lbl : String) :
    ∀ (l : List Order) (p : Portfolio),
      (∃ o ∈ l, p.data_source.getPrice o.symbol none none = none) →
      evalCollectionSpec fires lbl p l = none := by
  intro l
  induction l with
  | nil =>
    intro p hbad
    obtain ⟨o, ho, _⟩ := hbad
    exact absurd ho (List.not_mem_nil o)
  | cons a rest ih =>
    intro p hbad
    obtain ⟨o, ho, hnone⟩ := hbad
    simp only [evalCollectionSpec]
    cases hg : p.data_source.getPrice a.symbol none none with
    | none => rfl
    | some price =>
      simp only []
      have hmem : o ∈ rest := by
        rcases List.mem_cons.mp ho with h1 | h1
        · rw [h1] at hnone
          rw [hnone] at hg
          exact Option.noConfusion hg
        · exact h1
      by_cases hf : fires price a.price = true
      · rw [if_pos hf]
        cases horder : _order p a.symbol a.nb_shares lbl with
        | none => rfl
        | some q =>
          obtain ⟨p2, t⟩ := q
          have hfr := order_frame p a.symbol a.nb_shares lbl p2 t horder
          exact ih p2 ⟨o, hmem, by rw [hfr.1]; exact hnone⟩
      · rw [if_neg hf]
        exact ih p ⟨o, hmem, hnone⟩

theorem buyStopLoop_eq (l : List Order) :
    ∀ p, runBuyStopLoop p l = evalCollectionSpec fireBuy "Buy Stop Order" p l := by
  induction l with
  | nil => intro p; rfl
  | cons o rest ih =>
    intro p
    simp only [runBuyStopLoop, evalCollectionSpec]
    cases hg : p.data_source.getPrice o.symbol none none with
    | none => rfl
    | some price =>
      simp only []
      by_cases hf : price ≤ o.price
      · rw [if_pos hf, if_pos (show fireBuy price o.price = true by simp [fireBuy, hf])]
        cases _order p o.symbol o.nb_shares "Buy Stop Order" with
        | none => rfl
        | some q =>
          obtain ⟨p2, t⟩ := q
          exact ih p2
      · rw [if_neg hf, if_neg (show ¬fireBuy price o.price = true by simp [fireBuy, hf])]
        exact ih p

theorem sellStopLoop_eq (l : List Order) :
    ∀ p, runSellStopLoop p l = evalCollectionSpec fireSell "Sell Stop Order" p l := by
  induction l with
  | nil => intro p; rfl
  | cons o rest ih =>
    intro p
    simp only [runSellStopLoop, evalCollectionSpec]
    cases hg : p.data_source.getPrice o.symbol none none with
    | none => rfl
    | some price =>
      simp only []
      by_cases hf : o.price ≤ price
      · rw [if_pos hf, if_pos (show fireSell price o.price = true by simp [fireSell, hf])]
        cases _order p o.symbol o.nb_shares "Sell Stop Order" with
        | none => rfl
        | some q =>
          obtain ⟨p2, t⟩ := q
          exact ih p2
      · rw [if_neg hf, if_neg (show ¬fireSell price o.price = true by simp [fireSell, hf])]
        exact ih p

theorem buyLimitLoop_eq (l : List Order) :
    ∀ p, runBuyLimitLoop p l = evalCollectionSpec fireBuy "Buy Limit Order" p l := by
  induction l with
  | nil => intro p; rfl
  | cons o rest ih =>
    intro p
    simp only [runBuyLimitLoop, evalCollectionSpec]
    cases hg : p.data_source.getPrice o.symbol none none with
    | none => rfl
    | some price =>
      simp only []
      by_cases hf : price ≤ o.price
      · rw [if_pos hf, if_pos (show fireBuy price o.price = true by simp [fireBuy, hf])]
        cases _order p o.symbol o.nb_shares "Buy Limit Order" with
        | none => rfl
        | some q =>
          obtain ⟨p2, t⟩ := q
          exact ih p2
      · rw [if_neg hf, if_neg (show ¬fireBuy price o.price = true by simp [fireBuy, hf])]
        exact ih p

theorem sellLimitLoop_eq (l : List Order) :
    ∀ p, runSellLimitLoop p l = evalCollectionSpec fireSell "Sell Limit Order" p l := by
  induction l with
  | nil => intro p; rfl
  | cons o rest ih =>
    intro p
    simp only [runSellLimitLoop, evalCollectionSpec]
    cases hg : p.data_source.getPrice o.symbol none none with
    | none => rfl
    | some price =>
      simp only []
      by_cases hf : o.price ≤ price
      · rw [if_pos hf, if_pos (show fireSell price o.price = true by simp [fireSell, hf])]
        cases _order p o.symbol o.nb_shares "Sell Limit Order" with
        | none => rfl
        | some q =>
          obtain ⟨p2, t⟩ := q
          exact ih p2
      · rw [if_neg hf, if_neg (show ¬fireSell price o.price = true by simp [fireSell, hf])]
        exact ih p

theorem tick_eq_spec (p : Portfolio) : on_resolution p = on_resolution_spec p := by
  simp only [on_resolution, on_resolution_spec, buyStopLoop_eq, sellStopLoop_eq,
    buyLimitLoop_eq, sellLimitLoop_eq]

theorem tick_bad_none (p : Portfolio)
    (hbad : ∃ o ∈ pendingOrders p, p.data_source.getPrice o.symbol none none = none) :
    on_resolution_spec p = none := by
  obtain ⟨o, ho, hnone⟩ := hbad
  simp only [pendingOrders, List.mem_append] at ho
  simp only [on_resolution_spec]
  rcases ho with ((hbs | hss) | hbl) | hsl
  · exact opt_bind_none _ _ (evalSpec_bad fireBuy "Buy Stop Order"
      p.pending_buy_stop_orders p ⟨o, hbs, hnone⟩)
  · rcases Option.eq_none_or_eq_some
      (evalCollectionSpec fireBuy "Buy Stop Order" p p.pending_buy_stop_orders) with h1 | ⟨p1, h1⟩
    · exact opt_bind_none _ _ h1
    · rw [opt_bind_some _ _ p1 h1]
      have hf1 := evalSpec_frame fireBuy "Buy Stop Order" p.pending_buy_stop_orders p p1 h1
      exact opt_bind_none _ _ (evalSpec_bad fireSell "Sell Stop Order"
        p1.pending_sell_stop_orders p1
        ⟨o, by rw [hf1.2.2.1]; exact hss, by rw [hf1.1]; exact hnone⟩)
  · rcases Option.eq_none_or_eq_some
      (evalCollectionSpec fireBuy "Buy Stop Order" p p.pending_buy_stop_orders) with h1 | ⟨p1, h1⟩
    · exact opt_bind_none _ _ h1
    · rw [opt_bind_some _ _ p1 h1]
      have hf1 := evalSpec_frame fireBuy "Buy Stop Order" p.pending_buy_stop_orders p p1 h1
      rcases Option.eq_none_or_eq_some
        (evalCollectionSpec fireSell "Sell Stop Order" p1 p1.pending_sell_stop_orders) with h2 | ⟨p2, h2⟩
      · exact opt_bind_none _ _ h2
      · rw [opt_bind_some _ _ p2 h2]
        have hf2 := evalSpec_frame fireSell "Sell Stop Order" p1.pending_sell_stop_orders p1 p2 h2
        exact opt_bind_none _ _ (evalSpec_bad fireBuy "Buy Limit Order"
          p2.pending_buy_limit_orders p2
          ⟨o, by rw [hf2.2.2.2.1, hf1.2.2.2.1]; exact hbl,
            by rw [hf2.1, hf1.1]; exact hnone⟩)
  · rcases Option.eq_none_or_eq_some
      (evalCollectionSpec fireBuy "Buy Stop Order" p p.pending_buy_stop_orders) with h1 | ⟨p1, h1⟩
    · exact opt_bind_none _ _ h1
    · rw [opt_bind_some _ _ p1 h1]
      have hf1 := evalSpec_frame fireBuy "Buy Stop Order" p.pending_buy_stop_orders p p1 h1
      rcases Option.eq_none_or_eq_some
        (evalCollectionSpec fireSell "Sell Stop Order" p1 p1.pending_sell_stop_orders) with h2 | ⟨p2, h2⟩
      · exact opt_bind_none _ _ h2
      · rw [opt_bind_some _ _ p2 h2]
        have hf2 := evalSpec_frame fireSell "Sell Stop Order" p1.pending_sell_stop_orders p1 p2 h2
        rcases Option.eq_none_or_eq_some
          (evalCollectionSpec fireBuy "Buy Limit Order" p2 p2.pending_buy_limit_orders) with h3 | ⟨p3, h3⟩
        · exact opt_bind_none _ _ h3
        · rw [opt_bind_some _ _ p3 h3]
          have hf3 := evalSpec_frame fireBuy "Buy Limit Order" p2.pending_buy_limit_orders p2 p3 h3
          exact evalSpec_bad fireSell "Sell Limit Order" p3.pending_sell_limit_orders p3
            ⟨o, by rw [hf3.2.2.2.2, hf2.2.2.2.2, hf1.2.2.2.2]; exact hsl,
              by rw [hf3.1, hf2.1, hf1.1]; exact hnone⟩

theorem order_holdings (p : Portfolio) (s : String) (n : ℚ) (lbl : String)
    (p' : Portfolio) (t : Transaction) (hrun : _order p s n lbl = some (p', t)) :
    p'.holdings = p.holdings ∨
      ∃ sp, _put_holding p.holdings s n sp = some p'.holdings := by
  cases hg : p.data_source.getPrice s p.timestamp none with
  | none =>
    rw [order_symbol_not_found p s n lbl hg] at hrun
    obtain ⟨hp', ht⟩ := Prod.mk.inj (Option.some.inj hrun)
    subst hp'
    exact Or.inl rfl
  | some tp =>
    cases hs : _get_slippage_price p tp p.slippage_percent s with
    | none =>
      simp only [_order, _validate_and_create_transaction, hg, hs] at hrun
      exact Option.noConfusion hrun
    | some sp =>
      by_cases hge : p.cash_balance ≥ n * sp + p.transaction_fees
      · simp only [_order, _validate_and_create_transaction, hg, hs] at hrun
        rw [if_pos hge] at hrun
        simp only [] at hrun
        cases hput : _put_holding p.holdings s n sp with
        | none =>
          rw [hput] at hrun
          simp at hrun
        | some d' =>
          rw [hput] at hrun
          simp only [] at hrun
          obtain ⟨hp', ht⟩ := Prod.mk.inj (Option.some.inj hrun)
          subst hp'
          exact Or.inr ⟨sp, hput⟩
      · simp only [_order, _validate_and_create_transaction, hg, hs] at hrun
        rw [if_neg hge] at hrun
        simp only [] at hrun
        obtain ⟨hp', ht⟩ := Prod.mk.inj (Option.some.inj hrun)
        subst hp'
        exact Or.inl rfl

/-- Claim C1 (code-bug evidence): on a fresh portfolio, `buy_limit_order`
leaves the pending buy-limit collection empty and instead appends its order to
the pending BUY-STOP collection, and `sell_limit_order` likewise appends its
negated-quantity order to the pending SELL-STOP collection, contradicting the
claim that each entry point enqueues into the matching collection; the two
stop entry points and the quantity signs do behave as claimed. -/
theorem c1_limit_orders_misrouted :
    (buy_limit_order P0 "AAPL" 10 100).pending_buy_limit_orders = [] ∧
    (buy_limit_order P0 "AAPL" 10 100).pending_buy_stop_orders =
      [Order.mk "AAPL" 10 100] ∧
    (sell_limit_order P0 "AAPL" 10 100).pending_sell_limit_orders = [] ∧
    (sell_limit_order P0 "AAPL" 10 100).pending_sell_stop_orders =
      [Order.mk "AAPL" (-10) 100] ∧
    (buy_stop_order P0 "AAPL" 10 100).pending_buy_stop_orders =
      [Order.mk "AAPL" 10 100] ∧
    (sell_stop_order P0 "AAPL" 10 100).pending_sell_stop_orders =
      [Order.mk "AAPL" (-10) 100] := by
  simp [buy_limit_order, sell_limit_order, buy_stop_order, sell_stop_order, P0]

/-- Claim C2: for every successful market buy, the cash balance after the
order equals the balance before minus shares times the simulated price minus
the transaction fee, and the symbol's recorded share count increases by
exactly the ordered number of shares. -/
theorem c2_successful_market_buy (p : Portfolio) (symbol : String)
    (shares sp : ℚ) (p' : Portfolio) (t : Transaction)
    (_hpos : 0 < shares)
    (hrun : market_order p symbol shares = some (p', t))
    (hst : t.status = Status.SUCCESSFUL)
    (hsp : t.simulated_price = some sp) :
    p'.cash_balance = p.cash_balance - (shares * sp + p.transaction_fees) ∧
    sharesOf p' symbol = sharesOf p symbol + shares := by
  obtain ⟨tp, sp', hg, hs, hsp', hge, hcash, htr, hput⟩ :=
    order_success_core p symbol shares "Market Order" p' t hrun hst
  obtain rfl : sp = sp' := Option.some.inj (hsp.symm.trans hsp')
  exact ⟨hcash,
    put_holding_shares p.holdings symbol shares sp p'.holdings hput⟩

/-- Witness for C2 at the spec's §8 scenario: start balance 10000, buy 10
shares quoted at 100, 0% slippage at minute resolution, fee 5. -/
theorem c2_witness :
    market_order P0 "AAPL" 10 = some (P2res, T2res) ∧
    P2res.cash_balance = P0.cash_balance - (10 * 100 + P0.transaction_fees) ∧
    sharesOf P2res "AAPL" = sharesOf P0 "AAPL" + 10 := by
  have hrun : market_order P0 "AAPL" 10 = some (P2res, T2res) := by
    norm_num [market_order, _order, _validate_and_create_transaction,
      _get_slippage_price, _get_daily_high_price, _put_holding, dictGet,
      dictSet, Holding.add_shares, Holding.new, P0, P2res, T2res, dsConst]
  exact ⟨hrun,
    c2_successful_market_buy P0 "AAPL" 10 100 P2res T2res (by norm_num) hrun
      rfl rfl⟩

/-- Claim C3: an order with no available theoretical price yields a
`FAILED_SYMBOL_NOT_FOUND` transaction with no simulated price, and an order
whose cost exceeds the cash balance yields a `FAILED_INSUFFICIENT_FUNDS`
transaction; in both cases the portfolio is unchanged except for the
transaction appended to the history (atomicity). -/
theorem c3_failed_orders_atomic (p : Portfolio) (symbol : String) (n : ℚ)
    (lbl : String) :
    (p.data_source.getPrice symbol p.timestamp none = none →
      ∃ t, _order p symbol n lbl =
          some ({ p with transactions := p.transactions ++ [t] }, t) ∧
        t.status = Status.FAILED_SYMBOL_NOT_FOUND ∧ t.simulated_price = none) ∧
    (∀ tp sp, p.data_source.getPrice symbol p.timestamp none = some tp →
      _get_slippage_price p tp p.slippage_percent symbol = some sp →
      p.cash_balance < n * sp + p.transaction_fees →
      ∃ t, _order p symbol n lbl =
          some ({ p with transactions := p.transactions ++ [t] }, t) ∧
        t.status = Status.FAILED_INSUFFICIENT_FUNDS ∧
        t.simulated_price = some sp) := by
  constructor
  · intro h
    exact ⟨_, order_symbol_not_found p symbol n lbl h, rfl, rfl⟩
  · intro tp sp hg hs hlt
    exact ⟨_, order_insufficient_funds p symbol n lbl tp sp hg hs hlt, rfl, rfl⟩

/-- Witness for C3: a source that knows no symbol, and a portfolio with only
50 in cash facing a 105 total cost. -/
theorem c3_witness :
    (∃ t, _order P3nf "AAPL" 1 "Market Order" =
        some ({ P3nf with transactions := P3nf.transactions ++ [t] }, t) ∧
      t.status = Status.FAILED_SYMBOL_NOT_FOUND ∧ t.simulated_price = none) ∧
    (∃ t, _order P3if "AAPL" 1 "Market Order" =
        some ({ P3if with transactions := P3if.transactions ++ [t] }, t) ∧
      t.status = Status.FAILED_INSUFFICIENT_FUNDS ∧
      t.simulated_price = some 100) :=
  ⟨(c3_failed_orders_atomic P3nf "AAPL" 1 "Market Order").1 rfl,
   (c3_failed_orders_atomic P3if "AAPL" 1 "Market Order").2 100 100 rfl rfl
     (by norm_num [P3if, P0])⟩

/-- Claim C4 (code-bug evidence): with one pending buy-stop order whose
trigger condition holds, a tick fires the order (one transaction) but leaves
it in the pending collection, so a second tick fires the same order again
(two transactions), contradicting the claim that a fired order is removed and
never fires again. -/
theorem c4_triggered_order_not_removed :
    (on_resolution P4).map
        (fun q => (q.pending_buy_stop_orders, q.transactions.length)) =
      some ([O4], 1) ∧
    ((on_resolution P4).bind on_resolution).map
        (fun q => (q.pending_buy_stop_orders, q.transactions.length)) =
      some ([O4], 2) := by
  norm_num [on_resolution, runBuyStopLoop, runSellStopLoop, runBuyLimitLoop,
    runSellLimitLoop, _order, _validate_and_create_transaction,
    _get_slippage_price, _get_daily_high_price, _put_holding, dictGet, dictSet,
    Holding.add_shares, Holding.new, P4, P0, O4, dsConst, Option.bind]

/-- Claim C5: at a non-daily resolution the simulated price is the
theoretical price unchanged; at daily resolution, with the day's high fetched
at the midnight-truncated timestamp under field "high", it is
`theoretical + (high - theoretical) * (slippage_percent / 100)`. -/
theorem c5_slippage_price (p : Portfolio) (tp slip high : ℚ) (symbol : String)
    (ts : Timestamp) :
    (p.data_source.resolution ≠ Resolution.DAILY →
      _get_slippage_price p tp slip symbol = some tp) ∧
    (p.data_source.resolution = Resolution.DAILY →
      p.timestamp = some ts →
      p.data_source.getPrice symbol (some ts.midnight) (some "high") = some high →
      _get_slippage_price p tp slip symbol =
        some (tp + (high - tp) * (slip / 100))) := by
  constructor
  · intro h
    simp only [_get_slippage_price]
    rw [if_pos h]
  · intro hres hts hhigh
    simp only [_get_slippage_price, _get_daily_high_price, hts, hhigh]
    rw [if_neg (by simp [hres])]

/-- Witness for C5 at the spec's §8 scenario: theoretical 100, daily high
110, slippage 10% gives 101; and a non-daily resolution leaves 100. -/
theorem c5_witness :
    _get_slippage_price P5 100 10 "AAPL" = some 101 ∧
    _get_slippage_price P0 100 10 "AAPL" = some 100 := by
  constructor
  · have h := (c5_slippage_price P5 100 10 110 "AAPL" TS0).2 rfl rfl
      (by simp [P5, P0, dsDaily])
    rw [h]
    norm_num
  · exact (c5_slippage_price P0 100 10 110 "AAPL" TS0).1 (by simp [P0, dsConst])

/-- Claim C6 (code-bug evidence): at daily resolution with a quoted price
available but the day's high absent, the order attempt faults (the embedded
`none`, standing for the Python `TypeError` on `None - float`) instead of
producing a failed-status transaction. -/
theorem c6_missing_daily_high_faults :
    P6.data_source.getPrice "AAPL" P6.timestamp none = some 100 ∧
    _get_daily_high_price P6 "AAPL" = some none ∧
    market_order P6 "AAPL" 1 = none := by
  refine ⟨rfl, ?_, ?_⟩
  · simp [_get_daily_high_price, P6, P0, dsNoHigh]
  · simp [market_order, _order, _validate_and_create_transaction,
      _get_slippage_price, _get_daily_high_price, P6, P0, dsNoHigh]

/-- Claim C7: the tick evaluation of the code refines the spec §4.4 tick:
the four pending collections are processed in the fixed order buy-stop,
sell-stop, buy-limit, sell-limit; a buy order fires exactly when current
price ≤ trigger, a sell order exactly when current price ≥ trigger, and the
fill goes through the market-order path with the matching label. -/
theorem c7_on_resolution_refines_spec (p : Portfolio) :
    on_resolution p = on_resolution_spec p :=
  tick_eq_spec p

/-- Claim C8: the holdings ledger never records a zero-share holding — a fill
bringing a symbol's net count to exactly zero removes the entry — and the
nonzero-shares invariant is preserved both by `_put_holding` itself and by
the whole order path. -/
theorem c8_holdings_nonzero_invariant :
    (∀ d s n pr d', HoldingsInv d → _put_holding d s n pr = some d' →
      HoldingsInv d') ∧
    (∀ d s n pr d', sharesOfD d s + n = 0 → _put_holding d s n pr = some d' →
      dictGet d' s = none) ∧
    (∀ (p : Portfolio) s n lbl p' t, HoldingsInv p.holdings →
      _order p s n lbl = some (p', t) → HoldingsInv p'.holdings) := by
  refine ⟨put_holding_inv, put_holding_zero, ?_⟩
  intro p s n lbl p' t hinv hrun
  rcases order_holdings p s n lbl p' t hrun with heq | ⟨sp, hput⟩
  · rw [heq]
    exact hinv
  · exact put_holding_inv p.holdings s n sp p'.holdings hinv hput

/-- Witness for C8: selling 5 out of a 5-share position removes the holding
from the ledger. -/
theorem c8_witness :
    _put_holding [("AAPL", ⟨"AAPL", 5, 10⟩)] "AAPL" (-5) 20 = some [] ∧
    dictGet ([] : List (String × Holding)) "AAPL" = none := by
  have hput : _put_holding [("AAPL", ⟨"AAPL", 5, 10⟩)] "AAPL" (-5) 20 =
      some [] := by
    norm_num [_put_holding, dictGet, dictDel, Holding.add_shares]
  exact ⟨hput,
    c8_holdings_nonzero_invariant.2.1 [("AAPL", ⟨"AAPL", 5, 10⟩)] "AAPL" (-5)
      20 [] (by norm_num [sharesOfD, dictGet]) hput⟩

/-- Claim C9 (code-bug evidence): a zero-share conditional order is silently
enqueued with no validation or error, and a zero-share market order on an
existing position even produces a SUCCESSFUL transaction that still charges
the fee — the code never fails fast on malformed input. -/
theorem c9_no_input_validation :
    (buy_limit_order P0 "AAPL" 0 100).pending_buy_stop_orders =
      [Order.mk "AAPL" 0 100] ∧
    (market_order P9 "AAPL" 0).map (fun r => (r.2.status, r.1.cash_balance)) =
      some (Status.SUCCESSFUL, 9995) := by
  constructor
  · simp [buy_limit_order, P0]
  · norm_num [market_order, _order, _validate_and_create_transaction,
      _get_slippage_price, _get_daily_high_price, _put_holding, dictGet,
      dictSet, Holding.add_shares, Holding.new, P9, P0, dsConst]

/-- Claim C10: the tick evaluation looks prices up with no timestamp
argument, and is total only when every pending order's symbol has a price
under that timestamp-less query — an absent price makes the tick fault
(`none`) instead of recording a failed transaction — whereas the order path
queries at the current timestamp and turns an absent price into a
`FAILED_SYMBOL_NOT_FOUND` transaction. -/
theorem c10_tick_price_lookup (p : Portfolio) :
    ((∃ o ∈ pendingOrders p, p.data_source.getPrice o.symbol none none = none) →
      on_resolution p = none) ∧
    (∀ symbol n lbl, p.data_source.getPrice symbol p.timestamp none = none →
      ∃ t, _order p symbol n lbl =
          some ({ p with transactions := p.transactions ++ [t] }, t) ∧
        t.status = Status.FAILED_SYMBOL_NOT_FOUND) := by
  constructor
  · intro hbad
    rw [tick_eq_spec]
    exact tick_bad_none p hbad
  · intro symbol n lbl h
    exact ⟨_, order_symbol_not_found p symbol n lbl h, rfl⟩

/-- Witness for C10: a pending buy-stop order over a source that knows no
symbol makes the tick fault, while the market-order path on the same
portfolio records a failed transaction. -/
theorem c10_witness :
    on_resolution P10 = none ∧
    (∃ t, _order P10 "AAPL" 1 "Market Order" =
        some ({ P10 with transactions := P10.transactions ++ [t] }, t) ∧
      t.status = Status.FAILED_SYMBOL_NOT_FOUND) :=
  ⟨(c10_tick_price_lookup P10).1
      ⟨O4, by simp [pendingOrders, P10, P3nf, P0, O4], rfl⟩,
   (c10_tick_price_lookup P10).2 "AAPL" 1 "Market Order" rfl⟩

end BullETS
